import Mathlib

set_option linter.unusedVariables false

/-!
Shallow embedding of the dnsup dynamic-DNS updater.

The repository has two variants of the same tool sharing the address model:
the RFC 2136 signed-update variant (src/unnamed/part_000, using miekg/dns)
and the Azure provider-API variant (src/dnsup.go).  Both share the
interface-address resolver (chooseUnicast / chooseFour / chooseSix), the
IP config template type with UnmarshalYAML, ApplyIPToMask and Is4.

Go byte slices (net.IP, net.IPMask) are embedded as lists of Nat, with the
nil slice as the empty list; every producer keeps entries below 256.  The
Go standard-library net functions that the source calls (To4, To16, Mask,
Equal, the unicast classification predicates, ParseCIDR, CIDRMask) are
embedded from their Go definitions, since the source's meaning depends on
them.  A Go runtime panic (out-of-range slice index) is modelled as none.
-/

/-- A Go net.IP or net.IPMask value: a byte slice, with the nil slice as the
empty list. -/
abbrev Bytes := List Nat

/-- The 12-byte v4-in-v6 header (ten zero bytes then 0xff 0xff) that the Go
net package uses for 16-byte forms of IPv4 addresses. -/
def v4InV6 : Bytes := [0, 0, 0, 0, 0, 0, 0, 0, 0, 0, 255, 255]

/-- Go net.IPv4: the 16-byte form of the IPv4 address a.b.c.d. -/
def goIPv4 (a b c d : Nat) : Bytes := v4InV6 ++ [a, b, c, d]

/-- Go net.IP.To4: a 4-byte slice stays as is; a 16-byte slice carrying a
v4-in-v6 address is reduced to its last four bytes; anything else is nil. -/
def To4 (ip : Bytes) : Bytes :=
  if ip.length = 4 then ip
  else if ip.length = 16 ∧ ip.take 12 = v4InV6 then ip.drop 12
  else []

/-- Go net.IP.To16: a 4-byte slice is widened via net.IPv4; a 16-byte slice
stays as is; anything else is nil. -/
def To16 (ip : Bytes) : Bytes :=
  if ip.length = 4 then v4InV6 ++ ip
  else if ip.length = 16 then ip
  else []

/-- Go net.IP.Equal, including the mixed 4-byte versus 16-byte comparison. -/
def goEqual (ip x : Bytes) : Bool :=
  if ip.length = x.length then ip == x
  else if ip.length = 4 ∧ x.length = 16 then x.take 12 == v4InV6 && ip == x.drop 12
  else if ip.length = 16 ∧ x.length = 4 then ip.take 12 == v4InV6 && ip.drop 12 == x
  else false

/-- Go net.IPv4bcast (255.255.255.255). -/
def IPv4bcast : Bytes := goIPv4 255 255 255 255

/-- Go net.IPv4zero (0.0.0.0). -/
def IPv4zero : Bytes := goIPv4 0 0 0 0

/-- Go net.IPv6unspecified (::). -/
def IPv6zero : Bytes := List.replicate 16 0

/-- Go net.IPv6loopback (::1). -/
def IPv6loopback : Bytes := List.replicate 15 0 ++ [1]

/-- Go net.IP.IsUnspecified. -/
def IsUnspecified (ip : Bytes) : Bool := goEqual ip IPv4zero || goEqual ip IPv6zero

/-- Go net.IP.IsLoopback. -/
def IsLoopback (ip : Bytes) : Bool :=
  if !(To4 ip).isEmpty then (To4 ip).headD 0 == 127
  else goEqual ip IPv6loopback

/-- Go net.IP.IsMulticast. -/
def IsMulticast (ip : Bytes) : Bool :=
  if !(To4 ip).isEmpty then ((To4 ip).headD 0) &&& 240 == 224
  else ip.length == 16 && ip.headD 0 == 255

/-- Go net.IP.IsLinkLocalUnicast. -/
def IsLinkLocalUnicast (ip : Bytes) : Bool :=
  if !(To4 ip).isEmpty then (To4 ip).headD 0 == 169 && (To4 ip).getD 1 0 == 254
  else ip.length == 16 && ip.headD 0 == 254 && ((ip.getD 1 0) &&& 192) == 128

/-- Go net.IP.IsGlobalUnicast: a 4- or 16-byte address that is not the v4
broadcast, not unspecified, not loopback, not multicast and not link-local
unicast. -/
def IsGlobalUnicast (ip : Bytes) : Bool :=
  (ip.length == 4 || ip.length == 16) && !goEqual ip IPv4bcast &&
    !IsUnspecified ip && !IsLoopback ip && !IsMulticast ip && !IsLinkLocalUnicast ip

/-- First adjustment of Go net.IP.Mask: a 16-byte mask whose head is all
ones is reduced to 4 bytes when the address is 4 bytes. -/
def goMaskAdjMask (ip mask : Bytes) : Bytes :=
  if mask.length = 16 ∧ ip.length = 4 ∧ (∀ b ∈ mask.take 12, b = 255)
  then mask.drop 12 else mask

/-- Second adjustment of Go net.IP.Mask: a 16-byte v4-in-v6 address is
reduced to 4 bytes when the (adjusted) mask is 4 bytes. -/
def goMaskAdjIP (ip mask' : Bytes) : Bytes :=
  if mask'.length = 4 ∧ ip.length = 16 ∧ ip.take 12 = v4InV6
  then ip.drop 12 else ip

/-- Go net.IP.Mask: after the two adjustments take the bytewise AND;
mismatched lengths yield nil. -/
def goMask (ip mask : Bytes) : Bytes :=
  if (goMaskAdjIP ip (goMaskAdjMask ip mask)).length = (goMaskAdjMask ip mask).length
  then List.zipWith (· &&& ·) (goMaskAdjIP ip (goMaskAdjMask ip mask)) (goMaskAdjMask ip mask)
  else []

/-- Byte production loop of Go net.CIDRMask: l bytes of which the first n
bits are ones. -/
def maskBytes : Nat → Nat → Bytes
  | 0, _ => []
  | l + 1, n => if n ≥ 8 then 255 :: maskBytes l (n - 8) else (255 - (255 >>> n)) :: maskBytes l 0

/-- Go net.CIDRMask ones bits: the bits/8-byte mask whose first ones bits are
set, nil unless bits is a whole IPv4 or IPv6 length and ones fits. -/
def CIDRMask (ones bits : Nat) : Bytes :=
  if (bits = 32 ∨ bits = 128) ∧ ones ≤ bits then maskBytes (bits / 8) ones else []

/-- Go net.ParseCIDR on an IPv4 dotted-quad literal "a.b.c.d/n", taken on the
already-tokenized numeric parts.  Returns exactly what ParseCIDR returns:
the literal's full (unmasked) address in 16-byte form, then the network's
masked address, then the 4-byte mask; none is a parse error. -/
def parseCIDR4 (a b c d n : Nat) : Option (Bytes × Bytes × Bytes) :=
  if a < 256 ∧ b < 256 ∧ c < 256 ∧ d < 256 ∧ n ≤ 32 then
    some (goIPv4 a b c d, goMask (goIPv4 a b c d) (CIDRMask n 32), CIDRMask n 32)
  else none

/-- The 16 bytes of an IPv6 address given as its eight 16-bit groups. -/
def bytesOfGroups : List Nat → Bytes
  | [] => []
  | g :: gs => g / 256 :: g % 256 :: bytesOfGroups gs

/-- Go net.ParseCIDR on an IPv6 literal "x:…:x/n", taken on its eight
16-bit groups.  Returns the literal's full address, the masked network
address and the 16-byte mask; none is a parse error. -/
def parseCIDR6 (gs : List Nat) (n : Nat) : Option (Bytes × Bytes × Bytes) :=
  if gs.length = 8 ∧ (∀ g ∈ gs, g < 65536) ∧ n ≤ 128 then
    some (bytesOfGroups gs, goMask (bytesOfGroups gs) (CIDRMask n 128), CIDRMask n 128)
  else none

/-- The dnsup config template type IP: ip is the address stored by
UnmarshalYAML (the first result of net.ParseCIDR, the literal's full
address) and mask the prefix mask (ipnet.Mask). -/
structure IP where
  ip : Bytes
  mask : Bytes
deriving DecidableEq, Repr

/-- dnsup (*IP).UnmarshalYAML on an IPv4 CIDR literal: i.ip := ip and
i.mask := ipnet.Mask from net.ParseCIDR. -/
def unmarshalYAML4 (a b c d n : Nat) : Option IP :=
  (parseCIDR4 a b c d n).map fun t => ⟨t.1, t.2.2⟩

/-- dnsup (*IP).UnmarshalYAML on an IPv6 CIDR literal. -/
def unmarshalYAML6 (gs : List Nat) (n : Nat) : Option IP :=
  (parseCIDR6 gs n).map fun t => ⟨t.1, t.2.2⟩

/-- The write-back loop of ApplyIPToMask: newIp[idx] |= ourIp[idx] for every
index of ourIp.  An index past the end of newIp is a Go runtime panic,
modelled as none; bytes of newIp past the end of ourIp stay unchanged. -/
def orInto (newIp ourIp : Bytes) : Option Bytes :=
  if ourIp.length ≤ newIp.length then
    some (List.zipWith (· ||| ·) newIp ourIp ++ newIp.drop ourIp.length)
  else none

/-- dnsup (*IP).ApplyIPToMask: mask the discovered address with the
template's mask, widen to 16 bytes, then OR in every byte of the template's
own 16-byte address.  none models the runtime panic that the write loop
hits when the discovered address is nil. -/
def ApplyIPToMask (i : IP) (ip : Bytes) : Option Bytes :=
  orInto (To16 (goMask ip i.mask)) (To16 i.ip)

/-- dnsup (*IP).Is4: whether the stored literal address reduces to 4 bytes. -/
def Is4 (i : IP) : Bool := !(To4 i.ip).isEmpty

/-- One element of a Go net.Interface's Addrs() list: either a *net.IPNet or
some other net.Addr implementation (the latter is skipped by the type
assertion in chooseUnicast). -/
inductive Addr
  | ipnet (ip : Bytes) (mask : Bytes)
  | other
deriving DecidableEq

/-- A *net.IPNet as kept by chooseUnicast. -/
structure IPNet where
  ip : Bytes
  mask : Bytes
deriving DecidableEq

/-- dnsup chooseUnicast: keep, in order, the *net.IPNet entries whose address
is global unicast. -/
def chooseUnicast : List Addr → List IPNet
  | [] => []
  | Addr.other :: rest => chooseUnicast rest
  | Addr.ipnet ip mask :: rest =>
    if IsGlobalUnicast ip then ⟨ip, mask⟩ :: chooseUnicast rest else chooseUnicast rest

/-- dnsup chooseFour: the 4-byte form of the first entry that reduces to
4 bytes, nil if none. -/
def chooseFour : List IPNet → Bytes
  | [] => []
  | inet :: rest => if !(To4 inet.ip).isEmpty then To4 inet.ip else chooseFour rest

/-- dnsup chooseSix: the first entry that does not reduce to 4 bytes, masked
to its own declared mask, nil if none. -/
def chooseSix : List IPNet → Bytes
  | [] => []
  | inet :: rest => if (To4 inet.ip).isEmpty then goMask inet.ip inet.mask else chooseSix rest

/-- A Go net.Interface as main consumes it: its name and the result of
Addrs() (which can fail). -/
structure Iface where
  name : String
  addrs : Except String (List Addr)

/-- One iteration of main's resolution loop over the interface list: an
Addrs() error skips the interface (continue); a name matching the v4 flag
assigns the v4 slot, a name matching the v6 flag assigns the v6 slot. -/
def resolveStep (fourFrom sixFrom : String) (acc : Bytes × Bytes) (iface : Iface) :
    Bytes × Bytes :=
  match iface.addrs with
  | Except.error _ => acc
  | Except.ok addrs =>
    let acc1 := if iface.name = fourFrom then (chooseFour (chooseUnicast addrs), acc.2) else acc
    if iface.name = sixFrom then (acc1.1, chooseSix (chooseUnicast addrs)) else acc1

/-- main's resolution loop: fold resolveStep over the interface list starting
from (nil, nil) (var four, sixPre net.IP). -/
def resolveAddrs (fourFrom sixFrom : String) (ifs : List Iface) : Bytes × Bytes :=
  ifs.foldl (resolveStep fourFrom sixFrom) ([], [])

/-- main's whole resolution stage: a net.Interfaces() failure is fatal,
otherwise the loop runs and always produces a (possibly nil) pair. -/
def resolutionStage (fourFrom sixFrom : String) (ifsResult : Except String (List Iface)) :
    Except String (Bytes × Bytes) :=
  match ifsResult with
  | Except.error e => Except.error ("Failed to get net interfaces:" ++ e)
  | Except.ok ifs => Except.ok (resolveAddrs fourFrom sixFrom ifs)

/-- miekg/dns record type A. -/
def TypeA : Nat := 1

/-- miekg/dns record type TXT. -/
def TypeTXT : Nat := 16

/-- miekg/dns record type AAAA. -/
def TypeAAAA : Nat := 28

/-- miekg/dns record type ANY. -/
def TypeANY : Nat := 255

/-- miekg/dns class INET. -/
def ClassINET : Nat := 1

/-- miekg/dns class ANY. -/
def ClassANY : Nat := 255

/-- A miekg/dns RR_Header: owner name, record type, class and TTL. -/
structure RRHeader where
  name : String
  rrtype : Nat
  rrclass : Nat
  ttl : Nat
deriving DecidableEq

/-- The record data of the resource records main builds: the empty ANY body,
an A or AAAA address body, or a TXT string list. -/
inductive RData
  | anyData
  | aData (ip : Bytes)
  | aaaaData (ip : Bytes)
  | txtData (txt : List String)
deriving DecidableEq

/-- A miekg/dns resource record as main builds them. -/
structure RR where
  hdr : RRHeader
  rdata : RData
deriving DecidableEq

/-- miekg/dns Fqdn: append a trailing dot unless one is already there (the
escaped-trailing-dot subtlety of IsFqdn is out of scope: dnsup host and
zone names contain no backslashes). -/
def Fqdn (s : String) : String :=
  if s.data.getLast? = some '.' then s else s ++ "."

/-- dnsup joinDomain: the zone itself for "@", otherwise host dot zone,
fully qualified. -/
def joinDomain (part fqdn : String) : String :=
  if part = "@" then Fqdn fqdn else Fqdn (Fqdn part ++ fqdn)

/-- The signed-update variant's Config (TSIG secret map omitted: the claims
only consume server, zone, key name, hosts and TTL).  Hosts is one
enumeration order of the Go map. -/
structure Config where
  server : String
  zone : String
  key : String
  hosts : List (String × IP)
  ttl : Nat

/-- The per-host loop of the signed-update main: for each host append one
ANY record (class ANY, TTL 0) at the joined name and then one A or AAAA
record (class INET, configured TTL) holding the merged address; a merge
panic aborts the run (none). -/
def hostInsertions (zone : String) (ttl : Nat) (four sixPre : Bytes) :
    List (String × IP) → Option (List RR)
  | [] => some []
  | (host, ip) :: rest =>
    match (if Is4 ip then
        (ApplyIPToMask ip four).map
          (fun f => (⟨⟨joinDomain host zone, TypeA, ClassINET, ttl⟩, RData.aData f⟩ : RR))
      else
        (ApplyIPToMask ip sixPre).map
          (fun f => (⟨⟨joinDomain host zone, TypeAAAA, ClassINET, ttl⟩, RData.aaaaData f⟩ : RR))),
      hostInsertions zone ttl four sixPre rest with
    | some r, some rs =>
      some (⟨⟨joinDomain host zone, TypeANY, ClassANY, 0⟩, RData.anyData⟩ :: r :: rs)
    | _, _ => none

/-- The signed-update main's full additions list: the per-host records
followed by one TXT record at the zone apex holding the current timestamp
string (time.Now().String()). -/
def buildInsertions (zone : String) (ttl : Nat) (four sixPre : Bytes)
    (hosts : List (String × IP)) (now : String) : Option (List RR) :=
  (hostInsertions zone ttl four sixPre hosts).map
    fun l => l ++ [⟨⟨Fqdn zone, TypeTXT, ClassINET, ttl⟩, RData.txtData [now]⟩]

/-- miekg/dns HmacMD5 algorithm name. -/
def HmacMD5 : String := "hmac-md5.sig-alg.reg.int."

/-- The TSIG parameters main passes to Msg.SetTsig. -/
structure TsigParams where
  keyName : String
  algorithm : String
  fudge : Nat
  timeSigned : Int
deriving DecidableEq

/-- miekg/dns OpcodeUpdate. -/
def OpcodeUpdate : Nat := 5

/-- The parts of a miekg/dns Msg that main sets: opcode and zone from
SetUpdate, the update (Ns) section, and the TSIG parameters. -/
structure Msg where
  opcode : Nat
  zone : String
  ns : List RR
  tsig : Option TsigParams

/-- miekg/dns Msg.SetUpdate: UPDATE opcode with the zone as the update
section's zone. -/
def setUpdate (z : String) : Msg := ⟨OpcodeUpdate, z, [], none⟩

/-- miekg/dns Msg.SetTsig as main calls it: attach the TSIG parameters. -/
def setTsig (m : Msg) (key algo : String) (fudge : Nat) (now : Int) : Msg :=
  { m with tsig := some ⟨key, algo, fudge, now⟩ }

/-- The signed-update main's message construction: SetUpdate on the
fully-qualified zone, Ns := insertions, then SetTsig(key, HmacMD5, 300,
utcNow) where utcNow is time.Now().UTC().Unix(). -/
def buildUpdateMsg (cfg : Config) (insertions : List RR) (utcNow : Int) : Msg :=
  setTsig { setUpdate (Fqdn cfg.zone) with ns := insertions } cfg.key HmacMD5 300 utcNow

/-- Outcome of the run's tail: success, or logger.Fatal preceded by the
listed logged lines. -/
inductive RunOutcome
  | success
  | fatalAfterLogging (lines : List String)
deriving DecidableEq

/-- What logger.Print(reply) writes: the reply, or the nil placeholder. -/
def replyLog : Option String → String
  | some r => r
  | none => "<nil>"

/-- The result of one dns.Client.Exchange call: an optional raw reply and an
optional error. -/
structure ExchResult where
  reply : Option String
  err : Option String

/-- The error handling after the exchange: success when err is nil, else
print the raw reply and then Fatal with the error. -/
def exchangeOutcome (r : ExchResult) : RunOutcome :=
  match r.err with
  | none => RunOutcome.success
  | some e => RunOutcome.fatalAfterLogging [replyLog r.reply, "Failed to update DNS sever:" ++ e]

/-- The signed-update main's tail: exchange the message once with the
configured server; the second component records the exchange calls made
(message, server). -/
def signedSend (cfg : Config) (msg : Msg) (exchange : Msg → String → ExchResult) :
    RunOutcome × List (Msg × String) :=
  (exchangeOutcome (exchange msg cfg.server), [(msg, cfg.server)])

/-- The Azure variant's provider sub-config (only the fields the update path
reads). -/
structure AzureConfig where
  subscriptionID : String
  resourceGroup : String

/-- The Azure variant's Config.  Its ttl field is parsed from YAML exactly
like the signed variant's but, as in the source, nothing below reads it. -/
structure ConfigAzure where
  azure : AzureConfig
  zone : String
  hosts : List (String × IP)
  ttl : Nat

/-- One dnsClient.CreateOrUpdate request as SetARecord/SetAAAARecord issue
it (the address is kept in byte form; the wire body carries its string
rendering). -/
structure AzureRequest where
  resourceGroup : String
  zone : String
  host : String
  recType : String
  ttl : Int
  address : Bytes
deriving DecidableEq

/-- azureDnsUpdater.SetARecord's request: record type "A" with the literal
TTL 300 written in the source. -/
def setARecordReq (rg zone host : String) (ip : Bytes) : AzureRequest :=
  ⟨rg, zone, host, "A", 300, ip⟩

/-- azureDnsUpdater.SetAAAARecord's request: record type "AAAA" with the
literal TTL 300 written in the source. -/
def setAAAARecordReq (rg zone host : String) (ip : Bytes) : AzureRequest :=
  ⟨rg, zone, host, "AAAA", 300, ip⟩

/-- The Azure main's per-host loop over one enumeration order of the hosts
map: merge and submit one request per host; a merge panic aborts (none). -/
def azureRequestsAux (rg zone : String) (four sixPre : Bytes) :
    List (String × IP) → Option (List AzureRequest)
  | [] => some []
  | (host, ip) :: rest =>
    let req : Option AzureRequest :=
      if Is4 ip then (ApplyIPToMask ip four).map (setARecordReq rg zone host)
      else (ApplyIPToMask ip sixPre).map (setAAAARecordReq rg zone host)
    match req, azureRequestsAux rg zone four sixPre rest with
    | some r, some rs => some (r :: rs)
    | _, _ => none

/-- The Azure main's request batch for a config and the two discovered
addresses.  Note it reads cfg.azure, cfg.zone and cfg.hosts only. -/
def azureRequests (cfg : ConfigAzure) (four sixPre : Bytes) : Option (List AzureRequest) :=
  azureRequestsAux cfg.azure.resourceGroup cfg.zone four sixPre cfg.hosts

/-- What one provider-path unit of work observably does: the log lines it
emits and whether it called wg.Done. -/
structure TaskResult where
  logged : List String
  doneCalled : Bool
deriving DecidableEq

/-- Body of the goroutine in SetARecord/SetAAAARecord: perform the API call;
on error log it; in every case reach wg.Done afterwards. -/
def recordTask (host : String) (apiResult : Except String Unit) : TaskResult :=
  match apiResult with
  | Except.ok _ => ⟨[], true⟩
  | Except.error e => ⟨["Error updating " ++ host ++ ": " ++ e], true⟩

/-- Whether an API call result is a success. -/
def isOkB : Except String Unit → Bool
  | Except.ok _ => true
  | Except.error _ => false

/-- The provider-path fan-out: wg.Add(1) once per launched host (first
component) and one independent unit of work per host whose outcome depends
only on that host's own API result (second component). -/
def runBatch (hosts : List String) (api : String → Except String Unit) :
    Nat × List TaskResult :=
  (hosts.length, hosts.map fun h => recordTask h (api h))

/-- sync.WaitGroup.Wait returns exactly when every Add has been matched by a
Done. -/
def waitReturns (adds : Nat) (results : List TaskResult) : Bool :=
  adds == (results.filter (fun r => r.doneCalled)).length

/-- The merge rule exactly as the spec's invariant words it: where the mask
bit is 0 take the discovered bit, where it is 1 take the base bit, that is
merged = (discovered AND NOT mask) OR baseBits over 16-byte forms.  Written
from the spec's words, for comparison with ApplyIPToMask. -/
def specMergeC1 (i : IP) (d : Bytes) : Bytes :=
  List.zipWith (· ||| ·)
    (List.zipWith (fun x m => x &&& (255 - m)) (To16 d) (To16 i.mask))
    (To16 i.ip)

/-- The resolver's kept list as the spec words it: the global-unicast
*net.IPNet entries, in enumeration order. -/
def keptSpec (a : List Addr) : List IPNet :=
  a.filterMap fun addr =>
    match addr with
    | Addr.ipnet ip mask => if IsGlobalUnicast ip then some ⟨ip, mask⟩ else none
    | Addr.other => none

/-- The spec's v4 pick: the first kept address that reduces to 4 bytes, in
its 4-byte form, nil if none. -/
def v4Spec (kept : List IPNet) : Bytes :=
  match kept.find? (fun n => !(To4 n.ip).isEmpty) with
  | some n => To4 n.ip
  | none => []

/-- The spec's v6 pick: the first kept address that does not reduce to
4 bytes, masked to its own declared mask, nil if none. -/
def v6Spec (kept : List IPNet) : Bytes :=
  match kept.find? (fun n => (To4 n.ip).isEmpty) with
  | some n => goMask n.ip n.mask
  | none => []

/-- The two records the signed-update batch holds for one host: first the
delete-ANY record (type ANY, class ANY, TTL 0) at the joined owner name,
then the A or AAAA record (class INET, configured TTL) with the merged
address. -/
def hostPairSpec (zone : String) (ttl : Nat) (four sixPre : Bytes) (h : String × IP) : List RR :=
  [⟨⟨joinDomain h.1 zone, TypeANY, ClassANY, 0⟩, RData.anyData⟩,
    if Is4 h.2 then
      ⟨⟨joinDomain h.1 zone, TypeA, ClassINET, ttl⟩, RData.aData ((ApplyIPToMask h.2 four).getD [])⟩
    else
      ⟨⟨joinDomain h.1 zone, TypeAAAA, ClassINET, ttl⟩,
        RData.aaaaData ((ApplyIPToMask h.2 sixPre).getD [])⟩]

/-- The address carried by an A or AAAA record body (nil for the others). -/
def recAddress : RData → Bytes
  | RData.aData ip => ip
  | RData.aaaaData ip => ip
  | _ => []

/-- The provider-path request for one host as the spec describes the shared
inputs: same joined merge as the signed path, record type by family. -/
def azureReqSpec (rg zone : String) (four sixPre : Bytes) (h : String × IP) : AzureRequest :=
  if Is4 h.2 then setARecordReq rg zone h.1 ((ApplyIPToMask h.2 four).getD [])
  else setAAAARecordReq rg zone h.1 ((ApplyIPToMask h.2 sixPre).getD [])

/-! Helper lemmas about the embedded Go primitives. -/

theorem goIPv4_length (a b c d : Nat) : (goIPv4 a b c d).length = 16 := by
  simp [goIPv4, v4InV6]

theorem bytesOfGroups_length : ∀ gs : List Nat, (bytesOfGroups gs).length = 2 * gs.length := by
  intro gs
  induction gs with
  | nil => rfl
  | cons g gs ih => simp [bytesOfGroups, ih]; omega

theorem maskBytes_length (l : Nat) : ∀ n, (maskBytes l n).length = l := by
  induction l with
  | zero => intro n; rfl
  | succ k ih => intro n; simp only [maskBytes]; split <;> simp [ih]

theorem To16_len16 {l : Bytes} (h : l.length = 16) : To16 l = l := by
  unfold To16
  rw [if_neg (by omega), if_pos h]

theorem To16_len4 {l : Bytes} (h : l.length = 4) : To16 l = v4InV6 ++ l := by
  unfold To16
  rw [if_pos h]

theorem goMask_nil_left (m : Bytes) : goMask [] m = [] := by
  unfold goMask goMaskAdjIP goMaskAdjMask
  simp

theorem goMask_16_16 {d m : Bytes} (hd : d.length = 16) (hm : m.length = 16) :
    goMask d m = List.zipWith (· &&& ·) d m := by
  have h1 : goMaskAdjMask d m = m := by
    unfold goMaskAdjMask
    rw [if_neg]
    rintro ⟨-, h, -⟩
    omega
  have h2 : goMaskAdjIP d m = d := by
    unfold goMaskAdjIP
    rw [if_neg]
    rintro ⟨h, -, -⟩
    omega
  unfold goMask
  rw [h1, h2, if_pos (by omega)]

theorem goMask_4_4 {d m : Bytes} (hd : d.length = 4) (hm : m.length = 4) :
    goMask d m = List.zipWith (· &&& ·) d m := by
  have h1 : goMaskAdjMask d m = m := by
    unfold goMaskAdjMask
    rw [if_neg]
    rintro ⟨h, -, -⟩
    omega
  have h2 : goMaskAdjIP d m = d := by
    unfold goMaskAdjIP
    rw [if_neg]
    rintro ⟨-, h, -⟩
    omega
  unfold goMask
  rw [h1, h2, if_pos (by omega)]

theorem orInto_of_le {A B : Bytes} (h : B.length ≤ A.length) :
    orInto A B = some (List.zipWith (· ||| ·) A B ++ A.drop B.length) := by
  unfold orInto
  rw [if_pos h]

theorem applyIPToMask_16 {d base mask : Bytes} (hd : d.length = 16) (hb : base.length = 16)
    (hm : mask.length = 16) :
    ApplyIPToMask ⟨base, mask⟩ d
      = some (List.zipWith (· ||| ·) (List.zipWith (· &&& ·) d mask) base) := by
  show orInto (To16 (goMask d mask)) (To16 base) = _
  rw [goMask_16_16 hd hm]
  have hz : (List.zipWith (· &&& ·) d mask).length = 16 := by
    rw [List.length_zipWith, hd, hm]
    simp
  rw [To16_len16 hz, To16_len16 hb, orInto_of_le (by omega)]
  rw [hb, ← hz, List.drop_length, List.append_nil]

theorem applyIPToMask_4 {dis mask4 : Bytes} (a b c d : Nat) (hd : dis.length = 4)
    (hm : mask4.length = 4) :
    ApplyIPToMask ⟨goIPv4 a b c d, mask4⟩ dis
      = some (v4InV6 ++ List.zipWith (· ||| ·) (List.zipWith (· &&& ·) dis mask4) [a, b, c, d]) := by
  show orInto (To16 (goMask dis mask4)) (To16 (goIPv4 a b c d)) = _
  rw [goMask_4_4 hd hm]
  have hz : (List.zipWith (· &&& ·) dis mask4).length = 4 := by
    rw [List.length_zipWith, hd, hm]
    simp
  rw [To16_len4 hz, To16_len16 (goIPv4_length a b c d)]
  rw [orInto_of_le (by simp [goIPv4, v4InV6, hz])]
  rw [show goIPv4 a b c d = v4InV6 ++ [a, b, c, d] from rfl]
  rw [List.zipWith_append _ _ _ _ _ rfl]
  rw [show List.zipWith (· ||| ·) v4InV6 v4InV6 = v4InV6 by decide]
  have hlen : (v4InV6 ++ [a, b, c, d] : Bytes).length = (v4InV6 ++ List.zipWith (· &&& ·) dis mask4).length := by
    simp [v4InV6, hz]
  rw [hlen, List.drop_length, List.append_nil]

theorem applyIPToMask_nil {i : IP} (h : i.ip.length = 16) : ApplyIPToMask i [] = none := by
  show orInto (To16 (goMask [] i.mask)) (To16 i.ip) = none
  rw [goMask_nil_left, To16_len16 h, show To16 ([] : Bytes) = [] from rfl]
  unfold orInto
  rw [if_neg]
  simp [h]

theorem unmarshalYAML4_eq {a b c d n : Nat} {p : IP} (h : unmarshalYAML4 a b c d n = some p) :
    p = ⟨goIPv4 a b c d, CIDRMask n 32⟩ := by
  unfold unmarshalYAML4 parseCIDR4 at h
  by_cases hc : a < 256 ∧ b < 256 ∧ c < 256 ∧ d < 256 ∧ n ≤ 32
  · rw [if_pos hc] at h
    simp only [Option.map_some'] at h
    injection h with h
    exact h.symm
  · rw [if_neg hc] at h
    simp at h

theorem unmarshalYAML6_eq {gs : List Nat} {n : Nat} {p : IP} (h : unmarshalYAML6 gs n = some p) :
    p = ⟨bytesOfGroups gs, CIDRMask n 128⟩ ∧ gs.length = 8 := by
  unfold unmarshalYAML6 parseCIDR6 at h
  by_cases hc : gs.length = 8 ∧ (∀ g ∈ gs, g < 65536) ∧ n ≤ 128
  · rw [if_pos hc] at h
    simp only [Option.map_some'] at h
    injection h with h
    exact ⟨h.symm, hc.1⟩
  · rw [if_neg hc] at h
    simp at h

theorem lor_land_testBit (x m b i : Nat) :
    ((x &&& m) ||| b).testBit i
      = if m.testBit i then (x.testBit i || b.testBit i) else b.testBit i := by
  rw [Nat.testBit_lor, Nat.testBit_land]
  cases hm : m.testBit i <;> simp [hm]

theorem zipWith_land_zeros : ∀ (d : Bytes) (k : Nat),
    List.zipWith (· &&& ·) d (List.replicate k 0) = List.replicate (min d.length k) 0 := by
  intro d
  induction d with
  | nil => intro k; simp
  | cons x xs ih =>
    intro k
    cases k with
    | zero => simp
    | succ k => simp [List.replicate_succ, ih, Nat.succ_min_succ]

theorem zipWith_lor_zeros : ∀ base : Bytes,
    List.zipWith (· ||| ·) (List.replicate base.length 0) base = base := by
  intro base
  induction base with
  | nil => rfl
  | cons y ys ih => simp [List.replicate_succ, ih]

theorem zipWith_land_255 : ∀ l : Bytes, (∀ x ∈ l, x < 256) →
    List.zipWith (· &&& ·) l (List.replicate l.length 255) = l := by
  intro l
  induction l with
  | nil => intro _; rfl
  | cons x xs ih =>
    intro hb
    have hx : x &&& 255 = x := by
      have h8 := Nat.and_pow_two_sub_one_of_lt_two_pow (n := 8) (hb x (by simp))
      norm_num at h8
      exact h8
    simp [List.replicate_succ, hx, ih fun y hy => hb y (by simp [hy])]

theorem zipWith_lor_self_zeros : ∀ l : Bytes,
    List.zipWith (· ||| ·) l (List.replicate l.length 0) = l := by
  intro l
  induction l with
  | nil => rfl
  | cons x xs ih => simp [List.replicate_succ, ih]

theorem applyIPToMask_zero_mask {d base : Bytes} (hd : d.length = 16) (hb : base.length = 16) :
    ApplyIPToMask ⟨base, CIDRMask 0 128⟩ d = some base := by
  rw [show CIDRMask 0 128 = List.replicate 16 0 by decide]
  rw [applyIPToMask_16 hd hb (by simp)]
  rw [zipWith_land_zeros, hd]
  simp only [Nat.min_self]
  rw [show (16 : Nat) = base.length by omega, zipWith_lor_zeros]

theorem applyIPToMask_full_mask {dis : Bytes} (hd : dis.length = 4)
    (hb : ∀ x ∈ dis, x < 256) :
    ApplyIPToMask ⟨goIPv4 0 0 0 0, CIDRMask 32 32⟩ dis = some (To16 dis) := by
  rw [show CIDRMask 32 32 = [255, 255, 255, 255] by decide]
  rw [@applyIPToMask_4 dis [255, 255, 255, 255] 0 0 0 0 hd rfl]
  rw [show ([255, 255, 255, 255] : Bytes) = List.replicate 4 255 from rfl, ← hd]
  rw [zipWith_land_255 dis hb]
  rw [show ([0, 0, 0, 0] : Bytes) = List.replicate 4 0 from rfl, ← hd]
  rw [zipWith_lor_self_zeros dis, To16_len4 hd]

/-- C2: the spec's two documented merge examples.  Merging discovered 1.2.3.4
(chooseFour's 4-byte form) with the template parsed from 0.0.0.9/24 yields
1.2.3.9 (the 16-byte v4-in-v6 form, whose 4-byte reduction is 1.2.3.9), and
merging the discovered prefix 2001:0470:1f0e:083f:: with the template parsed
from ::1234:1234:1234:1234/64 yields 2001:0470:1f0e:083f:1234:1234:1234:1234. -/
theorem claim_C2_merge_examples :
    ((unmarshalYAML4 0 0 0 9 24).bind fun p => ApplyIPToMask p [1, 2, 3, 4])
      = some (goIPv4 1 2 3 9)
    ∧ To4 (goIPv4 1 2 3 9) = [1, 2, 3, 9]
    ∧ ((unmarshalYAML6 [0, 0, 0, 0, 0x1234, 0x1234, 0x1234, 0x1234] 64).bind fun p =>
        ApplyIPToMask p (bytesOfGroups [0x2001, 0x0470, 0x1f0e, 0x083f, 0, 0, 0, 0]))
      = some (bytesOfGroups [0x2001, 0x0470, 0x1f0e, 0x083f, 0x1234, 0x1234, 0x1234, 0x1234]) := by
  refine ⟨by decide, by decide, by decide⟩

/-- C1 counterexample: ApplyIPToMask keeps the discovered bits where the mask
bit is 1 (merged = (d AND mask) OR base), not where it is 0 as the claim's
formula merged = (d AND NOT mask) OR base states.  On the spec's own IPv6
example the two disagree; and a /0 template is NOT fully overridden by the
discovered address: the result is the template's base, not the discovered
1.2.3.4. -/
theorem claim_C1_counterexample :
    ((unmarshalYAML6 [0, 0, 0, 0, 0x1234, 0x1234, 0x1234, 0x1234] 64).bind fun p =>
        ApplyIPToMask p (bytesOfGroups [0x2001, 0x0470, 0x1f0e, 0x083f, 0, 0, 0, 0]))
      ≠ ((unmarshalYAML6 [0, 0, 0, 0, 0x1234, 0x1234, 0x1234, 0x1234] 64).map fun p =>
        specMergeC1 p (bytesOfGroups [0x2001, 0x0470, 0x1f0e, 0x083f, 0, 0, 0, 0]))
    ∧ ((unmarshalYAML4 5 6 7 8 0).bind fun p => ApplyIPToMask p [1, 2, 3, 4])
      = some (goIPv4 5 6 7 8)
    ∧ ((unmarshalYAML4 5 6 7 8 0).bind fun p => ApplyIPToMask p [1, 2, 3, 4])
      ≠ some (To16 [1, 2, 3, 4]) := by
  refine ⟨by decide, by decide, by decide⟩

/-- C1 (amended): the merge keeps the discovered bits where the mask bit is 1:
merged = (d AND mask) OR baseBits over 16-byte forms.  At each bit, a mask
bit of 1 selects the OR of the discovered and base bits, and a mask bit of 0
selects the base bit alone; hence a /0 template fully overrides the
discovered address (the result is its base), while a /32 template with
all-zero base is fully overridden (the result is the discovered address). -/
theorem claim_C1_amended_merge_rule :
    (∀ d base mask : Bytes, d.length = 16 → base.length = 16 → mask.length = 16 →
      ApplyIPToMask ⟨base, mask⟩ d
        = some (List.zipWith (· ||| ·) (List.zipWith (· &&& ·) d mask) base))
    ∧ (∀ dis mask4 : Bytes, ∀ a b c d : Nat, dis.length = 4 → mask4.length = 4 →
      ApplyIPToMask ⟨goIPv4 a b c d, mask4⟩ dis
        = some (v4InV6 ++ List.zipWith (· ||| ·) (List.zipWith (· &&& ·) dis mask4) [a, b, c, d]))
    ∧ (∀ x m b i : Nat,
      ((x &&& m) ||| b).testBit i
        = if m.testBit i then (x.testBit i || b.testBit i) else b.testBit i)
    ∧ (∀ d base : Bytes, d.length = 16 → base.length = 16 →
      ApplyIPToMask ⟨base, CIDRMask 0 128⟩ d = some base)
    ∧ (∀ dis : Bytes, dis.length = 4 → (∀ x ∈ dis, x < 256) →
      ApplyIPToMask ⟨goIPv4 0 0 0 0, CIDRMask 32 32⟩ dis = some (To16 dis)) :=
  ⟨fun d base mask hd hb hm => applyIPToMask_16 hd hb hm,
    fun dis mask4 a b c d hd hm => applyIPToMask_4 a b c d hd hm,
    lor_land_testBit,
    fun d base hd hb => applyIPToMask_zero_mask hd hb,
    fun dis hd hb => applyIPToMask_full_mask hd hb⟩

/-- Witness for the amended C1: the bit-selection rule evaluated on the
spec's IPv6 example. -/
theorem claim_C1_amended_merge_rule_witness :
    ApplyIPToMask
        ⟨bytesOfGroups [0, 0, 0, 0, 0x1234, 0x1234, 0x1234, 0x1234], CIDRMask 64 128⟩
        (bytesOfGroups [0x2001, 0x0470, 0x1f0e, 0x083f, 0, 0, 0, 0])
      = some (List.zipWith (· ||| ·)
          (List.zipWith (· &&& ·)
            (bytesOfGroups [0x2001, 0x0470, 0x1f0e, 0x083f, 0, 0, 0, 0]) (CIDRMask 64 128))
          (bytesOfGroups [0, 0, 0, 0, 0x1234, 0x1234, 0x1234, 0x1234])) :=
  claim_C1_amended_merge_rule.1
    (bytesOfGroups [0x2001, 0x0470, 0x1f0e, 0x083f, 0, 0, 0, 0])
    (bytesOfGroups [0, 0, 0, 0, 0x1234, 0x1234, 0x1234, 0x1234])
    (CIDRMask 64 128) (by decide) (by decide) (by decide)

/-- C3: merging any successfully parsed template against a nil (absent)
discovered base address is a runtime panic (none) — the run dies loudly —
and in particular never returns any address value, zero-valued or not. -/
theorem claim_C3_missing_base_is_fatal :
    (∀ a b c d n p, unmarshalYAML4 a b c d n = some p →
      ApplyIPToMask p [] = none ∧ ∀ r, ¬ApplyIPToMask p [] = some r)
    ∧ (∀ gs n q, unmarshalYAML6 gs n = some q →
      ApplyIPToMask q [] = none ∧ ∀ r, ¬ApplyIPToMask q [] = some r) := by
  constructor
  · intro a b c d n p hp
    have hip : p.ip.length = 16 := by
      rw [unmarshalYAML4_eq hp]
      exact goIPv4_length a b c d
    refine ⟨applyIPToMask_nil hip, fun r hr => ?_⟩
    rw [applyIPToMask_nil hip] at hr
    exact Option.noConfusion hr
  · intro gs n q hq
    obtain ⟨hq', hlen⟩ := unmarshalYAML6_eq hq
    have hip : q.ip.length = 16 := by
      rw [hq']
      rw [show IP.ip ⟨bytesOfGroups gs, CIDRMask n 128⟩ = bytesOfGroups gs from rfl]
      rw [bytesOfGroups_length, hlen]
    refine ⟨applyIPToMask_nil hip, fun r hr => ?_⟩
    rw [applyIPToMask_nil hip] at hr
    exact Option.noConfusion hr

/-- Witness for C3: the template 0.0.0.9/24 merged against nil panics. -/
theorem claim_C3_missing_base_is_fatal_witness :
    ApplyIPToMask ⟨goIPv4 0 0 0 9, CIDRMask 24 32⟩ [] = none :=
  (claim_C3_missing_base_is_fatal.1 0 0 0 9 24 ⟨goIPv4 0 0 0 9, CIDRMask 24 32⟩ (by decide)).1

/-- C10: parsing a valid CIDR literal stores the literal's FULL address as
the template base (ParseCIDR's first result), not the masked network
(computed separately as the second result); consequently base bits inside
the mask region are ORed into the merged result: 10.0.0.9/24 merged with
discovered 1.2.3.4 yields 11.2.3.9, not 1.2.3.9 (and the stored base
differs from the masked network). -/
theorem claim_C10_full_literal_base :
    (∀ a b c d n, a < 256 → b < 256 → c < 256 → d < 256 → n ≤ 32 →
      parseCIDR4 a b c d n
        = some (goIPv4 a b c d, goMask (goIPv4 a b c d) (CIDRMask n 32), CIDRMask n 32)
      ∧ unmarshalYAML4 a b c d n = some ⟨goIPv4 a b c d, CIDRMask n 32⟩)
    ∧ ((unmarshalYAML4 10 0 0 9 24).bind fun p => ApplyIPToMask p [1, 2, 3, 4])
      = some (goIPv4 11 2 3 9)
    ∧ ((unmarshalYAML4 10 0 0 9 24).bind fun p => ApplyIPToMask p [1, 2, 3, 4])
      ≠ some (goIPv4 1 2 3 9)
    ∧ goIPv4 10 0 0 9 ≠ goMask (goIPv4 10 0 0 9) (CIDRMask 24 32) := by
  refine ⟨fun a b c d n ha hb hc hd hn => ?_, by decide, by decide, by decide⟩
  have hcond : a < 256 ∧ b < 256 ∧ c < 256 ∧ d < 256 ∧ n ≤ 32 := ⟨ha, hb, hc, hd, hn⟩
  constructor
  · unfold parseCIDR4
    rw [if_pos hcond]
  · unfold unmarshalYAML4 parseCIDR4
    rw [if_pos hcond]
    rfl

/-- Witness for C10: the 10.0.0.9/24 literal parses to its full address. -/
theorem claim_C10_full_literal_base_witness :
    parseCIDR4 10 0 0 9 24
      = some (goIPv4 10 0 0 9, goMask (goIPv4 10 0 0 9) (CIDRMask 24 32), CIDRMask 24 32)
    ∧ unmarshalYAML4 10 0 0 9 24 = some ⟨goIPv4 10 0 0 9, CIDRMask 24 32⟩ :=
  claim_C10_full_literal_base.1 10 0 0 9 24 (by decide) (by decide) (by decide) (by decide)
    (by decide)

theorem chooseUnicast_eq_keptSpec : ∀ a : List Addr, chooseUnicast a = keptSpec a := by
  intro a
  induction a with
  | nil => rfl
  | cons x rest ih =>
    cases x with
    | other => simpa [chooseUnicast, keptSpec] using ih
    | ipnet ip mask =>
      by_cases h : IsGlobalUnicast ip = true
      · simp only [chooseUnicast, keptSpec, List.filterMap_cons, h, if_pos]
        simpa [keptSpec] using ih
      · simp only [chooseUnicast, keptSpec, List.filterMap_cons,
          Bool.not_eq_true (IsGlobalUnicast ip) ▸ h, if_neg h]
        simpa [keptSpec] using ih

theorem chooseFour_cons (inet : IPNet) (rest : List IPNet) :
    chooseFour (inet :: rest)
      = if !(To4 inet.ip).isEmpty then To4 inet.ip else chooseFour rest := rfl

theorem chooseSix_cons (inet : IPNet) (rest : List IPNet) :
    chooseSix (inet :: rest)
      = if (To4 inet.ip).isEmpty then goMask inet.ip inet.mask else chooseSix rest := rfl

theorem chooseFour_eq_v4Spec : ∀ k : List IPNet, chooseFour k = v4Spec k := by
  intro k
  induction k with
  | nil => rfl
  | cons inet rest ih =>
    rw [chooseFour_cons]
    by_cases h : (To4 inet.ip).isEmpty
    · rw [if_neg (by simp [h]), ih]
      unfold v4Spec
      rw [@List.find?_cons_of_neg _ (fun n => !(To4 n.ip).isEmpty) inet rest (by simp [h])]
    · rw [if_pos (by simp [h])]
      unfold v4Spec
      rw [@List.find?_cons_of_pos _ (fun n => !(To4 n.ip).isEmpty) inet rest (by simp [h])]

theorem chooseSix_eq_v6Spec : ∀ k : List IPNet, chooseSix k = v6Spec k := by
  intro k
  induction k with
  | nil => rfl
  | cons inet rest ih =>
    rw [chooseSix_cons]
    by_cases h : (To4 inet.ip).isEmpty
    · rw [if_pos h]
      unfold v6Spec
      rw [@List.find?_cons_of_pos _ (fun n => (To4 n.ip).isEmpty) inet rest h]
    · rw [if_neg h, ih]
      unfold v6Spec
      rw [@List.find?_cons_of_neg _ (fun n => (To4 n.ip).isEmpty) inet rest (by simpa using h)]

/-- C5: the resolver keeps exactly the global-unicast addresses, in
enumeration order (and global unicast excludes loopback, link-local unicast
and multicast); the v4 result is the 4-byte form of the first kept address
that reduces to 4 bytes (nil if none) and the v6 result is the first kept
address that does not, masked to its own declared mask (nil if none). -/
theorem claim_C5_resolver_selection :
    (∀ a : List Addr, chooseUnicast a = keptSpec a)
    ∧ (∀ k : List IPNet, chooseFour k = v4Spec k)
    ∧ (∀ k : List IPNet, chooseSix k = v6Spec k)
    ∧ (∀ a : List Addr, chooseFour (chooseUnicast a) = v4Spec (keptSpec a)
        ∧ chooseSix (chooseUnicast a) = v6Spec (keptSpec a))
    ∧ (∀ ip : Bytes, IsGlobalUnicast ip = true →
        IsLoopback ip = false ∧ IsLinkLocalUnicast ip = false ∧ IsMulticast ip = false) := by
  refine ⟨chooseUnicast_eq_keptSpec, chooseFour_eq_v4Spec, chooseSix_eq_v6Spec,
    fun a => ⟨by rw [chooseUnicast_eq_keptSpec, chooseFour_eq_v4Spec],
      by rw [chooseUnicast_eq_keptSpec, chooseSix_eq_v6Spec]⟩, ?_⟩
  intro ip h
  unfold IsGlobalUnicast at h
  simp only [Bool.and_eq_true, Bool.not_eq_true'] at h
  obtain ⟨⟨⟨⟨⟨-, -⟩, -⟩, hLoop⟩, hMulti⟩, hLink⟩ := h
  exact ⟨hLoop, hLink, hMulti⟩

/-- Witness for C5: a public v4-in-v6 address is global unicast and hence
none of loopback, link-local or multicast. -/
theorem claim_C5_resolver_selection_witness :
    IsLoopback (goIPv4 8 8 8 8) = false ∧ IsLinkLocalUnicast (goIPv4 8 8 8 8) = false
      ∧ IsMulticast (goIPv4 8 8 8 8) = false :=
  claim_C5_resolver_selection.2.2.2.2 (goIPv4 8 8 8 8) (by decide)


theorem hostInsertions_spec (zone : String) (ttl : Nat) (four sixPre : Bytes) :
    ∀ hosts hl, hostInsertions zone ttl four sixPre hosts = some hl →
      hl = hosts.flatMap (hostPairSpec zone ttl four sixPre) := by
  intro hosts
  induction hosts with
  | nil =>
    intro hl h
    injection h with h
    simp [h.symm]
  | cons p rest ih =>
    intro hl h
    obtain ⟨host, ip⟩ := p
    unfold hostInsertions at h
    by_cases h4 : Is4 ip = true
    · rw [if_pos h4] at h
      cases hm : ApplyIPToMask ip four with
      | none => rw [hm] at h; exact absurd h (by simp)
      | some v =>
        rw [hm] at h
        cases hr : hostInsertions zone ttl four sixPre rest with
        | none => rw [hr] at h; exact absurd h (by simp)
        | some rs =>
          rw [hr] at h
          simp only [Option.map_some'] at h
          injection h with h
          rw [← h, ih rs hr]
          simp [hostPairSpec, h4, hm]
    · rw [if_neg h4] at h
      cases hm : ApplyIPToMask ip sixPre with
      | none => rw [hm] at h; exact absurd h (by simp)
      | some v =>
        rw [hm] at h
        cases hr : hostInsertions zone ttl four sixPre rest with
        | none => rw [hr] at h; exact absurd h (by simp)
        | some rs =>
          rw [hr] at h
          simp only [Option.map_some'] at h
          injection h with h
          rw [← h, ih rs hr]
          simp [hostPairSpec, h4, hm]

theorem hostPairSpec_length (zone : String) (ttl : Nat) (four sixPre : Bytes) (h : String × IP) :
    (hostPairSpec zone ttl four sixPre h).length = 2 := rfl

theorem flatMap_hostPairSpec_length (zone : String) (ttl : Nat) (four sixPre : Bytes) :
    ∀ hosts : List (String × IP),
      (hosts.flatMap (hostPairSpec zone ttl four sixPre)).length = 2 * hosts.length := by
  intro hosts
  induction hosts with
  | nil => rfl
  | cons p rest ih =>
    rw [List.flatMap_cons, List.length_append, hostPairSpec_length, ih]
    simp
    omega

theorem buildInsertions_spec {zone : String} {ttl : Nat} {four sixPre : Bytes}
    {hosts : List (String × IP)} {now : String} {l : List RR}
    (h : buildInsertions zone ttl four sixPre hosts now = some l) :
    l = hosts.flatMap (hostPairSpec zone ttl four sixPre)
      ++ [⟨⟨Fqdn zone, TypeTXT, ClassINET, ttl⟩, RData.txtData [now]⟩] := by
  unfold buildInsertions at h
  cases hh : hostInsertions zone ttl four sixPre hosts with
  | none => rw [hh] at h; exact absurd h (by simp)
  | some hl =>
    rw [hh] at h
    simp only [Option.map_some'] at h
    injection h with h
    rw [← h, hostInsertions_spec zone ttl four sixPre hosts hl hh]

/-- C6: a successfully built signed-update batch over N hosts is exactly, in
order: for each host one delete-ANY record (type ANY, class ANY, TTL 0) at
the joined owner name followed by one A or AAAA record (class INET, the
configured TTL) with the merged address, and after all hosts exactly one
TXT record at the zone apex carrying the current timestamp, appended last;
2N+1 records in total. -/
theorem claim_C6_signed_batch_shape :
    ∀ zone ttl four sixPre hosts now l,
      buildInsertions zone ttl four sixPre hosts now = some l →
      l.length = 2 * hosts.length + 1
      ∧ l = hosts.flatMap (hostPairSpec zone ttl four sixPre)
          ++ [⟨⟨Fqdn zone, TypeTXT, ClassINET, ttl⟩, RData.txtData [now]⟩]
      ∧ l.getLast? = some ⟨⟨Fqdn zone, TypeTXT, ClassINET, ttl⟩, RData.txtData [now]⟩ := by
  intro zone ttl four sixPre hosts now l h
  have hs := buildInsertions_spec h
  refine ⟨?_, hs, ?_⟩
  · rw [hs, List.length_append, flatMap_hostPairSpec_length]
    rfl
  · rw [hs, List.getLast?_concat]

/-- Witness for C6: a one-host batch has 2·1+1 = 3 records. -/
theorem claim_C6_signed_batch_shape_witness :
    ((buildInsertions "example.org." 300 [1, 2, 3, 4] []
        [("h1", ⟨goIPv4 0 0 0 9, CIDRMask 24 32⟩)] "ts").get (by decide)).length
      = 2 * 1 + 1 :=
  (claim_C6_signed_batch_shape "example.org." 300 [1, 2, 3, 4] []
    [("h1", ⟨goIPv4 0 0 0 9, CIDRMask 24 32⟩)] "ts"
    ((buildInsertions "example.org." 300 [1, 2, 3, 4] []
      [("h1", ⟨goIPv4 0 0 0 9, CIDRMask 24 32⟩)] "ts").get (by decide))
    (by decide)).1

theorem azureRequestsAux_spec (rg zone : String) (four sixPre : Bytes) :
    ∀ hosts reqs, azureRequestsAux rg zone four sixPre hosts = some reqs →
      reqs = hosts.map (azureReqSpec rg zone four sixPre) := by
  intro hosts
  induction hosts with
  | nil =>
    intro reqs h
    injection h with h
    simp [h.symm]
  | cons p rest ih =>
    intro reqs h
    obtain ⟨host, ip⟩ := p
    unfold azureRequestsAux at h
    by_cases h4 : Is4 ip = true
    · rw [if_pos h4] at h
      cases hm : ApplyIPToMask ip four with
      | none => rw [hm] at h; exact absurd h (by simp)
      | some v =>
        rw [hm] at h
        cases hr : azureRequestsAux rg zone four sixPre rest with
        | none => rw [hr] at h; exact absurd h (by simp)
        | some rs =>
          rw [hr] at h
          simp only [Option.map_some'] at h
          injection h with h
          rw [← h, ih rs hr]
          simp [azureReqSpec, h4, hm]
    · rw [if_neg h4] at h
      cases hm : ApplyIPToMask ip sixPre with
      | none => rw [hm] at h; exact absurd h (by simp)
      | some v =>
        rw [hm] at h
        cases hr : azureRequestsAux rg zone four sixPre rest with
        | none => rw [hr] at h; exact absurd h (by simp)
        | some rs =>
          rw [hr] at h
          simp only [Option.map_some'] at h
          injection h with h
          rw [← h, ih rs hr]
          simp [azureReqSpec, h4, hm]

theorem azureReqSpec_ttl (rg zone : String) (four sixPre : Bytes) (h : String × IP) :
    (azureReqSpec rg zone four sixPre h).ttl = 300 := by
  unfold azureReqSpec
  by_cases h4 : Is4 h.2 = true
  · rw [if_pos h4]
    rfl
  · rw [if_neg h4]
    rfl

/-- C4 counterexample: with configured TTL 60 and the same host, discovered
address and zone, the signed-update path's A record carries TTL 60 while
the provider-API path's request carries the hardcoded TTL 300. -/
theorem claim_C4_counterexample :
    buildInsertions "example.org." 60 [1, 2, 3, 4] []
        [("h1", ⟨goIPv4 0 0 0 9, CIDRMask 24 32⟩)] "ts"
      = some
        [⟨⟨"h1.example.org.", TypeANY, ClassANY, 0⟩, RData.anyData⟩,
          ⟨⟨"h1.example.org.", TypeA, ClassINET, 60⟩, RData.aData (goIPv4 1 2 3 9)⟩,
          ⟨⟨"example.org.", TypeTXT, ClassINET, 60⟩, RData.txtData ["ts"]⟩]
    ∧ azureRequests ⟨⟨"sub", "rg"⟩, "example.org.",
          [("h1", ⟨goIPv4 0 0 0 9, CIDRMask 24 32⟩)], 60⟩ [1, 2, 3, 4] []
      = some [⟨"rg", "example.org.", "h1", "A", 300, goIPv4 1 2 3 9⟩]
    ∧ (300 : Int) ≠ (60 : Int) := by
  refine ⟨by decide, by decide, by decide⟩

/-- C4 (amended): the two strategies share the zone and the per-host merged
addresses, and the signed-update path's A/AAAA records carry the configured
TTL, but the provider-API path hardcodes TTL 300 into every request and
ignores the configured TTL entirely. -/
theorem claim_C4_amended_shared_inputs_except_ttl :
    (∀ rg zone four sixPre hosts reqs,
      azureRequestsAux rg zone four sixPre hosts = some reqs →
        ∀ r ∈ reqs, r.ttl = 300 ∧ r.zone = zone)
    ∧ (∀ cfg : ConfigAzure, ∀ t : Nat, ∀ four sixPre,
      azureRequests { cfg with ttl := t } four sixPre = azureRequests cfg four sixPre)
    ∧ (∀ zone ttl four sixPre hosts now l,
      buildInsertions zone ttl four sixPre hosts now = some l →
        ∀ rr ∈ l, (rr.hdr.rrtype = TypeA ∨ rr.hdr.rrtype = TypeAAAA) → rr.hdr.ttl = ttl)
    ∧ (∀ rg zone ttl four sixPre h,
      (azureReqSpec rg zone four sixPre h).address
        = recAddress (((hostPairSpec zone ttl four sixPre h).getD 1
            ⟨⟨"", 0, 0, 0⟩, RData.anyData⟩).rdata)) := by
  refine ⟨?_, ?_, ?_, ?_⟩
  · intro rg zone four sixPre hosts reqs h r hr
    rw [azureRequestsAux_spec rg zone four sixPre hosts reqs h] at hr
    obtain ⟨p, hp, rfl⟩ := List.mem_map.mp hr
    refine ⟨azureReqSpec_ttl rg zone four sixPre p, ?_⟩
    unfold azureReqSpec
    by_cases h4 : Is4 p.2 = true
    · rw [if_pos h4]
      rfl
    · rw [if_neg h4]
      rfl
  · intro cfg t four sixPre
    rfl
  · intro zone ttl four sixPre hosts now l h rr hrr htype
    rw [buildInsertions_spec h] at hrr
    rcases List.mem_append.mp hrr with hmem | hmem
    · obtain ⟨p, hp, hin⟩ := List.mem_flatMap.mp hmem
      unfold hostPairSpec at hin
      rcases List.mem_cons.mp hin with h1 | h1
      · rw [h1] at htype
        simp [TypeANY, TypeA, TypeAAAA] at htype
      · rcases List.mem_cons.mp h1 with h2 | h2
        · by_cases h4 : Is4 p.2 = true
          · rw [if_pos h4] at h2
            rw [h2]
          · rw [if_neg h4] at h2
            rw [h2]
        · exact absurd h2 (List.not_mem_nil _)
    · rw [List.mem_singleton.mp hmem] at htype
      simp [TypeTXT, TypeA, TypeAAAA] at htype
  · intro rg zone ttl four sixPre h
    unfold azureReqSpec hostPairSpec
    by_cases h4 : Is4 h.2 = true
    · rw [if_pos h4, if_pos h4]
      rfl
    · rw [if_neg h4, if_neg h4]
      rfl

/-- Witness for the amended C4: a concrete provider request carries TTL 300
and the configured zone. -/
theorem claim_C4_amended_shared_inputs_except_ttl_witness :
    (⟨"rg", "example.org.", "h1", "A", 300, goIPv4 1 2 3 9⟩ : AzureRequest).ttl = 300
    ∧ (⟨"rg", "example.org.", "h1", "A", 300, goIPv4 1 2 3 9⟩ : AzureRequest).zone
      = "example.org." :=
  claim_C4_amended_shared_inputs_except_ttl.1 "rg" "example.org." [1, 2, 3, 4] []
    [("h1", ⟨goIPv4 0 0 0 9, CIDRMask 24 32⟩)]
    [⟨"rg", "example.org.", "h1", "A", 300, goIPv4 1 2 3 9⟩] (by decide)
    ⟨"rg", "example.org.", "h1", "A", 300, goIPv4 1 2 3 9⟩ (by decide)

/-- C7: the update message is signed with TSIG using the HMAC-MD5 algorithm,
a 300-second fudge and the current UTC unix time, and exchanged exactly
once with the configured server; an exchange error is fatal for the run,
with the raw server reply logged before the fatal line; no error means
success. -/
theorem claim_C7_tsig_single_exchange :
    ∀ cfg : Config, ∀ insertions utcNow exchange,
      (buildUpdateMsg cfg insertions utcNow).tsig
        = some ⟨cfg.key, HmacMD5, 300, utcNow⟩
      ∧ (signedSend cfg (buildUpdateMsg cfg insertions utcNow) exchange).2
        = [(buildUpdateMsg cfg insertions utcNow, cfg.server)]
      ∧ (signedSend cfg (buildUpdateMsg cfg insertions utcNow) exchange).2.length = 1
      ∧ (∀ e, (exchange (buildUpdateMsg cfg insertions utcNow) cfg.server).err = some e →
          (signedSend cfg (buildUpdateMsg cfg insertions utcNow) exchange).1
            = RunOutcome.fatalAfterLogging
              [replyLog (exchange (buildUpdateMsg cfg insertions utcNow) cfg.server).reply,
                "Failed to update DNS sever:" ++ e])
      ∧ ((exchange (buildUpdateMsg cfg insertions utcNow) cfg.server).err = none →
          (signedSend cfg (buildUpdateMsg cfg insertions utcNow) exchange).1
            = RunOutcome.success) := by
  intro cfg insertions utcNow exchange
  refine ⟨rfl, rfl, rfl, ?_, ?_⟩
  · intro e he
    show exchangeOutcome (exchange (buildUpdateMsg cfg insertions utcNow) cfg.server)
      = RunOutcome.fatalAfterLogging _
    unfold exchangeOutcome
    rw [he]
  · intro he
    show exchangeOutcome (exchange (buildUpdateMsg cfg insertions utcNow) cfg.server)
      = RunOutcome.success
    unfold exchangeOutcome
    rw [he]

/-- Witness for C7: a failing exchange on a concrete config is fatal and the
raw reply line precedes the fatal line. -/
theorem claim_C7_tsig_single_exchange_witness :
    (signedSend ⟨"ns:53", "example.org.", "k.", [], 300⟩
        (buildUpdateMsg ⟨"ns:53", "example.org.", "k.", [], 300⟩ [] 7)
        (fun _ _ => ⟨some "RAWREPLY", some "timeout"⟩)).1
      = RunOutcome.fatalAfterLogging ["RAWREPLY", "Failed to update DNS sever:timeout"] :=
  (claim_C7_tsig_single_exchange ⟨"ns:53", "example.org.", "k.", [], 300⟩ [] 7
    (fun _ _ => ⟨some "RAWREPLY", some "timeout"⟩)).2.2.2.1 "timeout" rfl

theorem count_logged_eq_count_failed (api : String → Except String Unit) :
    ∀ hosts : List String,
      ((hosts.map (fun h => recordTask h (api h))).filter (fun r => !r.logged.isEmpty)).length
        = (hosts.filter (fun h => !isOkB (api h))).length := by
  intro hosts
  induction hosts with
  | nil => rfl
  | cons h rest ih =>
    simp only [List.map_cons, List.filter_cons]
    cases hapi : api h with
    | ok u =>
      rw [if_neg (by simp [recordTask]), if_neg (by simp [isOkB])]
      exact ih
    | error e =>
      rw [if_pos (by simp [recordTask]), if_pos (by simp [isOkB])]
      simp [ih]

/-- C8: the provider-API batch launches one independent unit of work per
host; every launched unit reaches the join point (wg.Done) whether its API
call succeeds or fails, the wait/barrier returns after all of them, each
unit's outcome depends only on its own host's API result (a failing host
only adds its own log line and cannot affect a sibling), and the number of
units that log a failure equals the number of failing API calls. -/
theorem claim_C8_provider_fanout :
    ∀ hosts : List String, ∀ api : String → Except String Unit,
      (runBatch hosts api).2.length = hosts.length
      ∧ (runBatch hosts api).1 = hosts.length
      ∧ (∀ r ∈ (runBatch hosts api).2, r.doneCalled = true)
      ∧ waitReturns (runBatch hosts api).1 (runBatch hosts api).2 = true
      ∧ (∀ i h, hosts.get? i = some h →
          (runBatch hosts api).2.get? i = some (recordTask h (api h)))
      ∧ ((runBatch hosts api).2.filter (fun r => !r.logged.isEmpty)).length
        = (hosts.filter (fun h => !isOkB (api h))).length := by
  intro hosts api
  have hdone : ∀ r ∈ (runBatch hosts api).2, r.doneCalled = true := by
    intro r hr
    obtain ⟨h, hh, rfl⟩ := List.mem_map.mp hr
    cases hapi : api h <;> simp [recordTask, hapi]
  refine ⟨by simp [runBatch], rfl, hdone, ?_, ?_, count_logged_eq_count_failed api hosts⟩
  · unfold waitReturns
    rw [List.filter_eq_self.mpr hdone]
    simp [runBatch]
  · intro i h hi
    unfold runBatch
    rw [List.get?_map, hi]
    rfl

/-- Witness for C8: a two-host batch where the second API call fails still
has both results at their own indices. -/
theorem claim_C8_provider_fanout_witness :
    (runBatch ["h1", "h2"]
        (fun h => if h == "h2" then Except.error "boom" else Except.ok ())).2.get? 1
      = some (recordTask "h2"
          ((fun h => if h == "h2" then Except.error "boom" else Except.ok ()) "h2")) :=
  (claim_C8_provider_fanout ["h1", "h2"]
    (fun h => if h == "h2" then Except.error "boom" else Except.ok ())).2.2.2.2.1 1 "h2"
    (by decide)

theorem resolveStep_error (fourFrom sixFrom : String) (acc : Bytes × Bytes)
    (name : String) (e : String) :
    resolveStep fourFrom sixFrom acc ⟨name, Except.error e⟩ = acc := rfl

theorem resolveStep_ok (fourFrom sixFrom : String) (acc : Bytes × Bytes)
    (name : String) (addrs : List Addr) :
    resolveStep fourFrom sixFrom acc ⟨name, Except.ok addrs⟩
      = if name = sixFrom then
          ((if name = fourFrom then (chooseFour (chooseUnicast addrs), acc.2) else acc).1,
            chooseSix (chooseUnicast addrs))
        else if name = fourFrom then (chooseFour (chooseUnicast addrs), acc.2) else acc := rfl

/-- C9: an interface whose Addrs() call fails contributes nothing to the
resolution (removing it from the list leaves the result unchanged); if
every interface carrying the v4 (resp. v6) flag's name fails or has an
empty address list, that family's result is nil (not found); and the
resolution stage never fails once the interface list itself was obtained. -/
theorem claim_C9_error_and_empty_interfaces :
    (∀ fourFrom sixFrom : String, ∀ pre post : List Iface, ∀ name e,
      resolveAddrs fourFrom sixFrom (pre ++ ⟨name, Except.error e⟩ :: post)
        = resolveAddrs fourFrom sixFrom (pre ++ post))
    ∧ (∀ fourFrom sixFrom : String, ∀ ifs : List Iface,
      (∀ i ∈ ifs, i.name = fourFrom →
        i.addrs = Except.ok [] ∨ ∃ e, i.addrs = Except.error e) →
      (resolveAddrs fourFrom sixFrom ifs).1 = [])
    ∧ (∀ fourFrom sixFrom : String, ∀ ifs : List Iface,
      (∀ i ∈ ifs, i.name = sixFrom →
        i.addrs = Except.ok [] ∨ ∃ e, i.addrs = Except.error e) →
      (resolveAddrs fourFrom sixFrom ifs).2 = [])
    ∧ (∀ fourFrom sixFrom : String, ∀ ifs : List Iface,
      resolutionStage fourFrom sixFrom (Except.ok ifs)
        = Except.ok (resolveAddrs fourFrom sixFrom ifs)) := by
  refine ⟨?_, ?_, ?_, fun _ _ _ => rfl⟩
  · intro fourFrom sixFrom pre post name e
    unfold resolveAddrs
    rw [List.foldl_append, List.foldl_cons, resolveStep_error, ← List.foldl_append]
  · intro fourFrom sixFrom ifs hifs
    unfold resolveAddrs
    have key : ∀ ifs2 : List Iface,
        (∀ i ∈ ifs2, i.name = fourFrom →
          i.addrs = Except.ok [] ∨ ∃ e, i.addrs = Except.error e) →
        ∀ acc : Bytes × Bytes, acc.1 = [] →
        (List.foldl (resolveStep fourFrom sixFrom) acc ifs2).1 = [] := by
      intro ifs2
      induction ifs2 with
      | nil => intro _ acc hacc; exact hacc
      | cons i rest ih =>
        intro hall acc hacc
        rw [List.foldl_cons]
        refine ih (fun j hj hn => hall j (List.mem_cons_of_mem _ hj) hn) _ ?_
        obtain ⟨name, iaddrs⟩ := i
        cases iaddrs with
        | error e => exact hacc
        | ok addrs =>
          rw [resolveStep_ok]
          by_cases hn : name = fourFrom
          · rcases hall ⟨name, Except.ok addrs⟩ (List.mem_cons_self _ _) hn with hempty | ⟨e, herr⟩
            · injection hempty with hempty
              subst hempty
              by_cases hs : name = sixFrom
              · rw [if_pos hs, if_pos hn]
                rfl
              · rw [if_neg hs, if_pos hn]
                rfl
            · exact absurd herr (by simp)
          · by_cases hs : name = sixFrom
            · rw [if_pos hs, if_neg hn]
              exact hacc
            · rw [if_neg hs, if_neg hn]
              exact hacc
    exact key ifs hifs ([], []) rfl
  · intro fourFrom sixFrom ifs hifs
    unfold resolveAddrs
    have key : ∀ ifs2 : List Iface,
        (∀ i ∈ ifs2, i.name = sixFrom →
          i.addrs = Except.ok [] ∨ ∃ e, i.addrs = Except.error e) →
        ∀ acc : Bytes × Bytes, acc.2 = [] →
        (List.foldl (resolveStep fourFrom sixFrom) acc ifs2).2 = [] := by
      intro ifs2
      induction ifs2 with
      | nil => intro _ acc hacc; exact hacc
      | cons i rest ih =>
        intro hall acc hacc
        rw [List.foldl_cons]
        refine ih (fun j hj hn => hall j (List.mem_cons_of_mem _ hj) hn) _ ?_
        obtain ⟨name, iaddrs⟩ := i
        cases iaddrs with
        | error e => exact hacc
        | ok addrs =>
          rw [resolveStep_ok]
          by_cases hs : name = sixFrom
          · rcases hall ⟨name, Except.ok addrs⟩ (List.mem_cons_self _ _) hs with hempty | ⟨e, herr⟩
            · injection hempty with hempty
              subst hempty
              rw [if_pos hs]
              rfl
            · exact absurd herr (by simp)
          · rw [if_neg hs]
            by_cases hn : name = fourFrom
            · rw [if_pos hn]
              exact hacc
            · rw [if_neg hn]
              exact hacc
    exact key ifs hifs ([], []) rfl

/-- Witness for C9: an interface list where the only v4-named interface
fails to enumerate yields a nil v4 result. -/
theorem claim_C9_error_and_empty_interfaces_witness :
    (resolveAddrs "eth0" "br0"
        [⟨"eth0", Except.error "EPERM"⟩,
          ⟨"br0", Except.ok [Addr.ipnet (bytesOfGroups [0x2001, 0x0470, 0x1f0e, 0x083f, 0, 0, 0, 1])
            (CIDRMask 64 128)]⟩]).1 = [] :=
  claim_C9_error_and_empty_interfaces.2.1 "eth0" "br0"
    [⟨"eth0", Except.error "EPERM"⟩,
      ⟨"br0", Except.ok [Addr.ipnet (bytesOfGroups [0x2001, 0x0470, 0x1f0e, 0x083f, 0, 0, 0, 1])
        (CIDRMask 64 128)]⟩]
    (by
      intro i hi hn
      rcases List.mem_cons.mp hi with h1 | h1
      · right
        exact ⟨"EPERM", by rw [h1]⟩
      · rcases List.mem_cons.mp h1 with h2 | h2
        · rw [h2] at hn
          exact absurd hn (by decide)
        · exact absurd h2 (List.not_mem_nil _))
